import Mathlib

/-!
Verification development for the training-step orchestration core of
`pixelmix_t2_wobest.py` (class `Trainer`).

The embedding below translates the per-step algorithm of
`Trainer.train_one_epoch`, the polynomial learning-rate scheduler
`Trainer.poly_lr_scheduler`, the checkpoint-resume policy of
`Trainer.load_checkpoint`, the epoch/iteration control loop of
`Trainer.train`, and the EMA validation block into Lean.

Conventions of the embedding:
- a single image of the (batch-size-one) batch is modelled with its
  channel dimension `Fin 3` and an abstract pixel type `Pos`;
- class-score maps (`pred` tensors) are functions `Pos → Fin (K+1) → ℚ`;
- label maps are `Pos → ℤ`, the ignore label being `-1` as in the source
  (`self.ignore_index = -1`);
- torch externals (the segmentation model, `F.softmax`,
  `nn.CrossEntropyLoss`, `augment`, `fourier_mix`, `cutmix_combine`) are
  parameters of the step function, collected in `Externals`;
- a Python exception is an `Except.error`;
- the step function returns a `StepResult` trace recording the forward
  passes (with their gradient-tracking flag), the perturbation-function
  invocation counts, the loss terms propagated into the shared gradient
  buffer, the `losses` logging dictionary, and the scalars written to the
  metric sink.
-/

set_option maxHeartbeats 1000000
set_option maxRecDepth 10000

namespace PixelMix

/-- Class-score map over pixels: `K + 1` classes, matching a `[K+1,H,W]`
prediction tensor for one image. -/
abbrev Pred (Pos : Type) (K : ℕ) := Pos → Fin (K + 1) → ℚ

/-- One image: three channels of pixel values, matching a `[3,H,W]` tensor. -/
abbrev Img (Pos : Type) := Fin 3 → Pos → ℚ

/-- A label map: class index (or the ignore value `-1`) per pixel. -/
abbrev Lab (Pos : Type) := Pos → ℤ

/-- `self.ignore_index = -1` from `Trainer.__init__`. -/
def ignoreIndex : ℤ := -1

/-- Result of one model invocation: either a single class-score map or a
(main, auxiliary) pair, as described for the dual-head model. -/
inductive ModelOut (Pos : Type) (K : ℕ) where
  | single (p : Pred Pos K)
  | pair (p q : Pred Pos K)

/-- The helper `unpack` from `train_one_epoch`:
`return (x[0], x[1]) if isinstance(x, tuple) else (x, None)`. -/
def unpack {Pos : Type} {K : ℕ} : ModelOut Pos K → Pred Pos K × Option (Pred Pos K)
  | ModelOut.single p => (p, none)
  | ModelOut.pair p q => (p, some q)

/-- Index of the (first) maximal class score, the embedding of
`torch.argmax(…, dim=1)` at one pixel. -/
def argmaxProb {K : ℕ} (v : Fin (K + 1) → ℚ) : Fin (K + 1) :=
  (List.finRange (K + 1)).foldl (fun b k => if v b < v k then k else b) ⟨0, Nat.succ_pos K⟩

/-- Maximal class score at one pixel, the value component of
`torch.max(…, dim=1)`. -/
def maxProb {K : ℕ} (v : Fin (K + 1) → ℚ) : ℚ :=
  v (argmaxProb v)

/-- Confidence mask at one pixel: `maxpred > T`, used both for the
self-best mask (`mask_1 = (maxpred_best > T)`) and for the original policy
(`mask_1 = (maxpred_1 > T)`). -/
def confMask {Pos : Type} {K : ℕ} (prob : Pred Pos K) (T : ℚ) (p : Pos) : Bool :=
  decide (T < maxProb (prob p))

/-- Auxiliary cross-entropy gated by `self.cfg.aux`; passing a missing
auxiliary prediction to `self.loss` is a Python error. -/
def auxCE {Pos : Type} {K : ℕ} (aux : Bool) (ce : Pred Pos K → Lab Pos → ℚ)
    (p2 : Option (Pred Pos K)) (lab : Lab Pos) (w : ℚ) : Except String (Option ℚ) :=
  if aux then
    match p2 with
    | some q => Except.ok (some (ce q lab * w))
    | none => Except.error "auxiliary prediction missing"
  else Except.ok none

/-- The `label_2` map of the original pseudo-label pass:
`pred_c = (pred_P_1 + pred_P_2) / 2`, `mask = (maxpred_1 > T) | (maxpred_2 > T)`,
`label_2 = torch.where(mask, argpred_c, ignore_tensor)`. The arguments are
the two already-softmaxed score maps. -/
def origAuxMap {Pos : Type} {K : ℕ} (P1 P2 : Pred Pos K) (T : ℚ) : Lab Pos :=
  fun p =>
    if confMask P1 T p || confMask P2 T p then
      ((argmaxProb (fun k => (P1 p k + P2 p k) / 2) : ℕ) : ℤ)
    else ignoreIndex

/-- The `if self.cfg.aux:` part of the original pseudo-label pass (lines
285–291): when the auxiliary flag holds, the auxiliary score map must be
present and `label_2` is produced. -/
def origAux {Pos : Type} {K : ℕ} (aux : Bool) (smax : Pred Pos K → Pred Pos K) (T : ℚ)
    (p1 : Pred Pos K) (p2o : Option (Pred Pos K)) : Except String (Option (Lab Pos)) :=
  if aux then
    match p2o with
    | some p2 => Except.ok (some (origAuxMap (smax p1) (smax p2) T))
    | none => Except.error "auxiliary prediction missing in original pass"
  else Except.ok none

/-- External collaborators of one training step: the dual-head model,
`F.softmax` along the class dimension, the ignore-aware cross-entropy
`self.loss`, and the three perturbation providers. -/
structure Externals (Pos : Type) (K : ℕ) where
  model : Img Pos → ModelOut Pos K
  smax : Pred Pos K → Pred Pos K
  ce : Pred Pos K → Lab Pos → ℚ
  augmentF : Img Pos → Lab Pos → Img Pos × Lab Pos
  fourierMixF : Img Pos → Img Pos → ℚ → Img Pos
  cutmixF : Img Pos → Lab Pos → Img Pos → Lab Pos → Img Pos × Lab Pos

/-- Trace of one training step. `forwards` lists the model invocations in
order, each with its gradient-tracking flag (`false` under
`torch.no_grad()`); `backwardNames` lists the loss terms whose `backward()`
accumulated into the shared gradient buffer; `recorded` is the `losses`
dictionary; `logged` is the list of scalar names written to the metric
sink during the step. -/
structure StepResult (Pos : Type) where
  forwards : List (String × Bool)
  augCalls : ℕ
  fourierCalls : ℕ
  cutmixCalls : ℕ
  backwardNames : List String
  recorded : List (String × ℚ)
  logged : List String
  totalLoss : ℚ
  optimizerSteps : ℕ
  hybrid : Fin 3 → Pos → ℚ
  sbMask : Pos → Bool
  sbLabel : Pos → ℤ
  selfTrainLoss : ℚ

instance {Pos : Type} : Inhabited (StepResult Pos) :=
  ⟨⟨[], 0, 0, 0, [], [], [], 0, 0, fun _ _ => 0, fun _ => false, fun _ => 0, 0⟩⟩

/-- Augmentation-consistency branch (lines 296–328): gated by
`self.cfg.lam_aug > 0`; one `augment` call for the main label, and under
`self.cfg.aux` a second `augment` call for `label_2`.
Returns the recorded loss entries and the perturbation-call count. -/
def augBranch {Pos : Type} {K : ℕ} (cfg_lamAug cfg_lamAux : ℚ) (aux : Bool)
    (ext : Externals Pos K) (xh : Img Pos) (olab1 : Lab Pos) (olab2 : Option (Lab Pos)) :
    Except String (List (String × ℚ) × ℕ) :=
  if 0 < cfg_lamAug then
    let a1 := ext.augmentF xh olab1
    let ap := unpack (ext.model a1.1)
    let lossAug1 := ext.ce ap.1 a1.2 * cfg_lamAug
    if aux then
      match olab2 with
      | none => Except.error "original auxiliary label missing"
      | some l2 =>
        let a2 := ext.augmentF xh l2
        match ap.2 with
        | none => Except.error "auxiliary prediction missing"
        | some q =>
          Except.ok
            ([("aug_main", lossAug1), ("aug_aux", ext.ce q a2.2 * cfg_lamAug * cfg_lamAux)], 2)
    else Except.ok ([("aug_main", lossAug1)], 1)
  else Except.ok ([], 0)

/-- Fourier-consistency branch (lines 333–363): gated by
`self.cfg.lam_fourier > 0`; mixes the current image toward the source
batch image and scores against `label_1` (and `label_2` for the auxiliary
head). -/
def fourierBranch {Pos : Type} {K : ℕ} (cfg_lamFourier cfg_lamAux beta : ℚ) (aux : Bool)
    (ext : Externals Pos K) (xh xsOrig : Img Pos) (olab1 : Lab Pos)
    (olab2 : Option (Lab Pos)) : Except String (List (String × ℚ) × ℕ) :=
  if 0 < cfg_lamFourier then
    let xf := ext.fourierMixF xh xsOrig beta
    let fp := unpack (ext.model xf)
    let l1 := ext.ce fp.1 olab1 * cfg_lamFourier
    if aux then
      match olab2, fp.2 with
      | some l2, some q =>
        Except.ok
          ([("fourier_main", l1), ("fourier_aux", ext.ce q l2 * cfg_lamFourier * cfg_lamAux)], 1)
      | _, _ => Except.error "auxiliary data missing in fourier branch"
    else Except.ok ([("fourier_main", l1)], 1)
  else Except.ok ([], 0)

/-- CutMix-consistency branch (lines 368–399): gated by
`self.cfg.lam_cutmix > 0`; mixes the current image and `label_1` with the
source image and source label, and scores both heads against the mixed
label. -/
def cutmixBranch {Pos : Type} {K : ℕ} (cfg_lamCutmix cfg_lamAux : ℚ) (aux : Bool)
    (ext : Externals Pos K) (xh : Img Pos) (olab1 : Lab Pos) (xsOrig : Img Pos)
    (ysOrig : Lab Pos) : Except String (List (String × ℚ) × ℕ) :=
  if 0 < cfg_lamCutmix then
    let cm := ext.cutmixF xh olab1 xsOrig ysOrig
    let cp := unpack (ext.model cm.1)
    let l1 := ext.ce cp.1 cm.2 * cfg_lamCutmix
    if aux then
      match cp.2 with
      | some q =>
        Except.ok
          ([("cutmix_main", l1), ("cutmix_aux", ext.ce q cm.2 * cfg_lamCutmix * cfg_lamAux)], 1)
      | none => Except.error "auxiliary prediction missing in cutmix branch"
    else Except.ok ([("cutmix_main", l1)], 1)
  else Except.ok ([], 0)

/-- Configuration record: the fields of `self.cfg` consumed by one
training step. -/
structure Config where
  aux : Bool
  sourceFourier : Bool
  lamAux : ℚ
  lamNew : ℚ
  lamAug : ℚ
  lamFourier : ℚ
  lamCutmix : ℚ
  pseudobestThreshold : ℚ
  pseudolabelThreshold : ℚ
  fourierBeta : ℚ

/-- One training step, the body of the `for batch_idx, (batch_s, batch_t)`
loop of `Trainer.train_one_epoch` (lines 173–423): source supervised loss,
self-best pseudo-label and hybrid-image self-training loss, original
pseudo-label pass, the three gated consistency branches, then one
optimizer step and the logging of the step. `xs`/`ys` are the source batch
image and label, `xt` the target batch image. -/
def trainStep {Pos : Type} {K : ℕ} (cfg : Config) (ext : Externals Pos K)
    (xs : Img Pos) (ys : Lab Pos) (xt : Img Pos) : Except String (StepResult Pos) :=
  let xSrcIn := if cfg.sourceFourier then ext.fourierMixF xs xt cfg.fourierBeta else xs
  let srcFour : ℕ := if cfg.sourceFourier then 1 else 0
  let sp := unpack (ext.model xSrcIn)
  match auxCE cfg.aux ext.ce sp.2 ys cfg.lamAux with
  | Except.error e => Except.error e
  | Except.ok srcAux =>
    let srcRec : List (String × ℚ) :=
      ("source_main", ext.ce sp.1 ys) ::
        (match srcAux with | some v => [("source_aux", v)] | none => [])
    match ext.model xt with
    | ModelOut.single _ => Except.error "cannot unpack single prediction"
    | ModelOut.pair po1 _ =>
      let prob := ext.smax po1
      let msk : Pos → Bool := fun p => confMask prob cfg.pseudobestThreshold p
      let lab1 : Lab Pos := fun p => if msk p then ((argmaxProb (prob p) : ℕ) : ℤ) else ys p
      let xh : Img Pos := fun c p => if msk p then xt c p else xs c p
      let hp := unpack (ext.model xh)
      match hp.2 with
      | none => Except.error "auxiliary prediction missing in self-best"
      | some hq =>
        let stLoss :=
          ext.ce hp.1 lab1 * cfg.lamNew + cfg.lamAux * ext.ce hq lab1 * cfg.lamNew
        let op := unpack (ext.model xh)
        let probO := ext.smax op.1
        let olab1 : Lab Pos := fun p =>
          if confMask probO cfg.pseudolabelThreshold p then
            ((argmaxProb (probO p) : ℕ) : ℤ)
          else ignoreIndex
        match origAux cfg.aux ext.smax cfg.pseudolabelThreshold op.1 op.2 with
        | Except.error e => Except.error e
        | Except.ok olab2 =>
          match augBranch cfg.lamAug cfg.lamAux cfg.aux ext xh olab1 olab2 with
          | Except.error e => Except.error e
          | Except.ok augOut =>
            match fourierBranch cfg.lamFourier cfg.lamAux cfg.fourierBeta cfg.aux ext xh xs
                olab1 olab2 with
            | Except.error e => Except.error e
            | Except.ok fourOut =>
              match cutmixBranch cfg.lamCutmix cfg.lamAux cfg.aux ext xh olab1 xs ys with
              | Except.error e => Except.error e
              | Except.ok cutOut =>
                let recAll := srcRec ++ augOut.1 ++ fourOut.1 ++ cutOut.1
                Except.ok
                  { forwards :=
                      [("source", true), ("maskgen", false), ("hybrid", true),
                        ("origpseudo", false)]
                        ++ (if 0 < cfg.lamAug then [("aug", true)] else [])
                        ++ (if 0 < cfg.lamFourier then [("fourier", true)] else [])
                        ++ (if 0 < cfg.lamCutmix then [("cutmix", true)] else [])
                    augCalls := augOut.2
                    fourierCalls := srcFour + fourOut.2
                    cutmixCalls := cutOut.2
                    backwardNames :=
                      ["source", "self_train"]
                        ++ (if 0 < cfg.lamAug then ["aug"] else [])
                        ++ (if 0 < cfg.lamFourier then ["fourier"] else [])
                        ++ (if 0 < cfg.lamCutmix then ["cutmix"] else [])
                    recorded := recAll
                    logged := "train/lr" :: recAll.map (fun e => "train/" ++ e.1)
                    totalLoss := (recAll.map Prod.snd).sum
                    optimizerSteps := 1
                    hybrid := xh
                    sbMask := msk
                    sbLabel := lab1
                    selfTrainLoss := stLoss }

/-- The result of one training step for a model that always returns a
(main, auxiliary) pair `(m1 i, m2 i)`, written as a total function.
`trainStep_pair` below proves that `trainStep` computes exactly this
value for such a model. -/
def stepPair {Pos : Type} {K : ℕ} (cfg : Config) (ext : Externals Pos K)
    (m1 m2 : Img Pos → Pred Pos K) (xs : Img Pos) (ys : Lab Pos) (xt : Img Pos) :
    StepResult Pos :=
  let xSrcIn := if cfg.sourceFourier then ext.fourierMixF xs xt cfg.fourierBeta else xs
  let srcFour : ℕ := if cfg.sourceFourier then 1 else 0
  let srcRec : List (String × ℚ) :=
    ("source_main", ext.ce (m1 xSrcIn) ys) ::
      (if cfg.aux then [("source_aux", ext.ce (m2 xSrcIn) ys * cfg.lamAux)] else [])
  let prob := ext.smax (m1 xt)
  let msk : Pos → Bool := fun p => confMask prob cfg.pseudobestThreshold p
  let lab1 : Lab Pos := fun p => if msk p then ((argmaxProb (prob p) : ℕ) : ℤ) else ys p
  let xh : Img Pos := fun c p => if msk p then xt c p else xs c p
  let stLoss :=
    ext.ce (m1 xh) lab1 * cfg.lamNew + cfg.lamAux * ext.ce (m2 xh) lab1 * cfg.lamNew
  let probO := ext.smax (m1 xh)
  let olab1 : Lab Pos := fun p =>
    if confMask probO cfg.pseudolabelThreshold p then
      ((argmaxProb (probO p) : ℕ) : ℤ)
    else ignoreIndex
  let augRec : List (String × ℚ) :=
    if 0 < cfg.lamAug then
      ("aug_main", ext.ce (m1 (ext.augmentF xh olab1).1) (ext.augmentF xh olab1).2
          * cfg.lamAug) ::
        (if cfg.aux then
          [("aug_aux",
            ext.ce (m2 (ext.augmentF xh olab1).1)
                (ext.augmentF xh
                  (origAuxMap (ext.smax (m1 xh)) (ext.smax (m2 xh))
                    cfg.pseudolabelThreshold)).2
              * cfg.lamAug * cfg.lamAux)]
        else [])
    else []
  let fourRec : List (String × ℚ) :=
    if 0 < cfg.lamFourier then
      ("fourier_main",
          ext.ce (m1 (ext.fourierMixF xh xs cfg.fourierBeta)) olab1 * cfg.lamFourier) ::
        (if cfg.aux then
          [("fourier_aux",
            ext.ce (m2 (ext.fourierMixF xh xs cfg.fourierBeta))
                (origAuxMap (ext.smax (m1 xh)) (ext.smax (m2 xh)) cfg.pseudolabelThreshold)
              * cfg.lamFourier * cfg.lamAux)]
        else [])
    else []
  let cutRec : List (String × ℚ) :=
    if 0 < cfg.lamCutmix then
      ("cutmix_main",
          ext.ce (m1 (ext.cutmixF xh olab1 xs ys).1) (ext.cutmixF xh olab1 xs ys).2
            * cfg.lamCutmix) ::
        (if cfg.aux then
          [("cutmix_aux",
            ext.ce (m2 (ext.cutmixF xh olab1 xs ys).1) (ext.cutmixF xh olab1 xs ys).2
              * cfg.lamCutmix * cfg.lamAux)]
        else [])
    else []
  let recAll := srcRec ++ augRec ++ fourRec ++ cutRec
  { forwards :=
      [("source", true), ("maskgen", false), ("hybrid", true), ("origpseudo", false)]
        ++ (if 0 < cfg.lamAug then [("aug", true)] else [])
        ++ (if 0 < cfg.lamFourier then [("fourier", true)] else [])
        ++ (if 0 < cfg.lamCutmix then [("cutmix", true)] else [])
    augCalls := if 0 < cfg.lamAug then (if cfg.aux then 2 else 1) else 0
    fourierCalls := srcFour + (if 0 < cfg.lamFourier then 1 else 0)
    cutmixCalls := if 0 < cfg.lamCutmix then 1 else 0
    backwardNames :=
      ["source", "self_train"]
        ++ (if 0 < cfg.lamAug then ["aug"] else [])
        ++ (if 0 < cfg.lamFourier then ["fourier"] else [])
        ++ (if 0 < cfg.lamCutmix then ["cutmix"] else [])
    recorded := recAll
    logged := "train/lr" :: recAll.map (fun e => "train/" ++ e.1)
    totalLoss := (recAll.map Prod.snd).sum
    optimizerSteps := 1
    hybrid := xh
    sbMask := msk
    sbLabel := lab1
    selfTrainLoss := stLoss }

/-! ### EMA shadow and the validation block -/

/-- Modelled from the spec: the `EMA` class of `models/ema.py` is not under
`src/`; its state per §3/§4.5 is the shadow parameter copy, the backup of
the live parameters, and the live parameters themselves (held by the
model). The invariant is that `backup` is non-empty only between
`applyShadow` and `restore`. -/
structure EMAState (P : Type) where
  live : P
  shadow : P
  backup : Option P

/-- Modelled from the spec: `EMA.apply_shadow` backs up the live
parameters and swaps the shadow parameters in. -/
def applyShadow {P : Type} (s : EMAState P) : EMAState P :=
  { live := s.shadow, shadow := s.shadow, backup := some s.live }

/-- Modelled from the spec: `EMA.restore` writes the backup back into the
live parameters and clears the backup. -/
def emaRestore {P : Type} (s : EMAState P) : EMAState P :=
  { live := s.backup.getD s.live, shadow := s.shadow, backup := none }

/-- The validation block of `train_one_epoch` (lines 437–449):
`self.ema.apply_shadow()`, then `self.validate()`, then
`self.ema.restore()` — written without any exception handling, so a raise
inside `validate` propagates before `restore` runs. The boolean result
reports whether `restore` executed. -/
def validationBlock {P : Type} (s : EMAState P) (validationRaises : Bool) :
    EMAState P × Bool :=
  let s1 := applyShadow s
  if validationRaises then (s1, false) else (emaRestore s1, true)

/-! ### Polynomial learning-rate scheduler -/

/-- `Trainer.poly_lr_scheduler` (line 626):
`new_lr = init_lr * (1 - float(iter) / max_iter) ** power`. -/
noncomputable def polyLR (initLR : ℝ) (iter maxIter : ℕ) (power : ℝ) : ℝ :=
  initLR * (1 - (iter : ℝ) / (maxIter : ℝ)) ^ power

/-- Assignment of the computed rate to the optimizer parameter groups
(lines 627–629): the first group always receives the rate; when the
optimizer has exactly two groups the second receives ten times the rate;
indexing an empty group list is a Python error. -/
noncomputable def applyPolyLR (lr : ℝ) : List ℝ → Option (List ℝ)
  | [] => none
  | [_] => some [lr]
  | [_, _] => some [lr, 10 * lr]
  | _ :: g1 :: g2 :: rest => some (lr :: g1 :: g2 :: rest)

/-! ### Checkpoint loading -/

/-- The fields of a checkpoint payload relevant to
`Trainer.load_checkpoint`; optional fields model `'key' in checkpoint`
membership tests. `O` is the optimizer-state type. -/
structure CkptPayload (O : Type) where
  optimizerState : Option O
  epochVal : Option ℕ
  iterVal : Option ℕ
  hasShadow : Bool
  hasStateDict : Bool

/-- The trainer progress counters and optimizer state touched by
`load_checkpoint`. -/
structure TrainerCounters (O : Type) where
  epoch : ℕ
  iter : ℕ
  optState : O

/-- Which entry of the checkpoint the model parameters are taken from
(lines 584–589): the shadow parameters when not in training mode and
present, else the state dict, else the raw payload. -/
inductive ParamSource where
  | shadow
  | stateDict
  | raw
deriving DecidableEq

/-- The parameter-source selection of `load_checkpoint`. -/
def paramSource (cfgTrain hasShadow hasStateDict : Bool) : ParamSource :=
  if !cfgTrain && hasShadow then ParamSource.shadow
  else if hasStateDict then ParamSource.stateDict
  else ParamSource.raw

/-- The optimizer/counter part of `Trainer.load_checkpoint` (lines
610–617): only under `self.cfg.train and self.cfg.model.resume_from_checkpoint`
is the optimizer state restored (when present), and when both `'epoch'`
and `'iter'` are present the counters are assigned the constant `0`. -/
def loadCheckpointCounters {O : Type} (cfgTrain resumeFlag : Bool) (ck : CkptPayload O)
    (ts : TrainerCounters O) : TrainerCounters O :=
  if cfgTrain && resumeFlag then
    let ts1 :=
      match ck.optimizerState with
      | some o => { ts with optState := o }
      | none => ts
    match ck.epochVal, ck.iterVal with
    | some _, some _ => { ts1 with epoch := 0, iter := 0 }
    | _, _ => ts1
  else ts

/-! ### Epoch and iteration control loop

The iteration budget, halt condition and final-checkpoint behaviour of
`Trainer.train` / `Trainer.train_one_epoch` are modelled at the level of
the counters: each completed step increments `self.iter` and training
stops as soon as `self.iter > self.cfg.opt.iterations` (checked after the
increment, before the validation block). Validation runs when
`batch_idx > 0 and batch_idx % 200 == 0`; its outcome is abstracted by
`improves : ℕ → Bool` indexed by the iteration count at validation time
(`MIoU > self.best_MIou`). The attribute `self.best_iter` is assigned only
in the improving branch (line 462) and is never initialised in
`Trainer.__init__`; both the non-improving log line (lines 469–470) and
the final log line of `train` (line 151) read it, which is a Python
`AttributeError` when it was never assigned — modelled as `crash`. -/

/-- Outcome of running (the remainder of) one epoch. -/
inductive EpochOut where
  | crash
  | halt (iter : ℕ) (bestSet : Bool)
  | done (iter : ℕ) (bestSet : Bool)
deriving DecidableEq

/-- The per-epoch loop of `train_one_epoch`, reduced to the counters:
`n` is the number of remaining lockstep batches, `bidx` the current
`batch_idx`, `iter` the global iteration counter, `bestSet` whether
`self.best_iter` has ever been assigned. -/
def runEpoch (maxIter : ℕ) (improves : ℕ → Bool) : ℕ → ℕ → ℕ → Bool → EpochOut
  | 0, _, iter, bestSet => EpochOut.done iter bestSet
  | n + 1, bidx, iter, bestSet =>
    let iter2 := iter + 1
    if maxIter < iter2 then EpochOut.halt iter2 bestSet
    else if 0 < bidx ∧ bidx % 200 = 0 then
      if improves iter2 then runEpoch maxIter improves n (bidx + 1) iter2 true
      else if bestSet then runEpoch maxIter improves n (bidx + 1) iter2 bestSet
      else EpochOut.crash
    else runEpoch maxIter improves n (bidx + 1) iter2 bestSet

/-- Outcome of a whole training run: `finished` carries the final value of
`self.iter` and the list of iteration values written into final
checkpoints (the single `save_checkpoint('final.pth')` after the epoch
loop); `crash` is an uncaught Python error; `fuelOut` never occurs for
sufficient fuel. -/
inductive RunOut where
  | crash
  | fuelOut
  | finished (finalIter : ℕ) (finalCkptIters : List ℕ)
deriving DecidableEq

/-- The `while self.continue_training` loop of `Trainer.train` followed by
the final log line (which reads `self.best_iter`) and the single final
checkpoint save. `total` is the per-epoch number of lockstep batches
(`min` of the two loader lengths). -/
def trainLoop (maxIter total : ℕ) (improves : ℕ → Bool) : ℕ → ℕ → Bool → RunOut
  | 0, _, _ => RunOut.fuelOut
  | fuel + 1, iter, bestSet =>
    match runEpoch maxIter improves total 0 iter bestSet with
    | EpochOut.crash => RunOut.crash
    | EpochOut.halt iter2 bestSet2 =>
      if bestSet2 then RunOut.finished iter2 [iter2] else RunOut.crash
    | EpochOut.done iter2 bestSet2 => trainLoop maxIter total improves fuel iter2 bestSet2

/-! ### Concrete demonstration scenario

A concrete instantiation used by witnesses and counterexamples: two
pixels, eight classes, a model that always returns the same
(main, auxiliary) pair of score maps, identity standing for the external
softmax, a constant cross-entropy, and identity-like perturbation
providers. -/

/-- Demonstration score map (scores need not be normalised): pixel `0` has
score `9` on class `7` and `1` elsewhere; pixel `1` has score `3` on class
`0` and `1` elsewhere. With threshold `5`, pixel `0` is confident and
pixel `1` is not. -/
def demoProb : Pred (Fin 2) 7 :=
  fun p k => if p = 0 then (if k = 7 then 9 else 1)
             else (if k = 0 then 3 else 1)

/-- Demonstration main-head model output map. -/
def demoM1 : Img (Fin 2) → Pred (Fin 2) 7 := fun _ => demoProb

/-- Demonstration auxiliary-head model output map. -/
def demoM2 : Img (Fin 2) → Pred (Fin 2) 7 := fun _ => demoProb

/-- Demonstration externals: a pair-returning model together with simple
total stand-ins for the torch externals. -/
def demoExt : Externals (Fin 2) 7 where
  model := fun i => ModelOut.pair (demoM1 i) (demoM2 i)
  smax := fun p => p
  ce := fun _ _ => 1
  augmentF := fun i l => (i, l)
  fourierMixF := fun a _ _ => a
  cutmixF := fun i1 l1 _ _ => (i1, l1)

/-- Demonstration externals whose model returns a single prediction. -/
def demoExtSingle : Externals (Fin 2) 7 where
  model := fun _ => ModelOut.single demoProb
  smax := fun p => p
  ce := fun _ _ => 1
  augmentF := fun i l => (i, l)
  fourierMixF := fun a _ _ => a
  cutmixF := fun i1 l1 _ _ => (i1, l1)

/-- Demonstration source image: constant `5`. -/
def demoXs : Img (Fin 2) := fun _ _ => 5

/-- Demonstration target image: constant `9`. -/
def demoXt : Img (Fin 2) := fun _ _ => 9

/-- Demonstration source ground-truth label: `2` at pixel `0`, `3` at
pixel `1`. -/
def demoYs : Lab (Fin 2) := fun p => if p = 0 then 2 else 3

/-- Demonstration base configuration: auxiliary head off, source Fourier
off, all consistency weights zero, both thresholds `5`. -/
def demoCfg : Config where
  aux := false
  sourceFourier := false
  lamAux := 2
  lamNew := 1
  lamAug := 0
  lamFourier := 0
  lamCutmix := 0
  pseudobestThreshold := 5
  pseudolabelThreshold := 5
  fourierBeta := 1

/-- Demonstration configuration with the source-Fourier flag on and every
consistency weight still zero. -/
def demoCfgSF : Config :=
  { demoCfg with sourceFourier := true }

/-- The demonstration step result (for a given configuration), extracted
from the `Except`. -/
def demoRes (cfg : Config) : StepResult (Fin 2) :=
  (trainStep cfg demoExt demoXs demoYs demoXt).toOption.getD default

/-! ## Theorems -/

/-- For a model that always returns a (main, auxiliary) pair, one training
step succeeds and computes exactly the `stepPair` trace. -/
theorem trainStep_pair {Pos : Type} {K : ℕ} (cfg : Config) (ext : Externals Pos K)
    (m1 m2 : Img Pos → Pred Pos K) (xs : Img Pos) (ys : Lab Pos) (xt : Img Pos)
    (hm : ∀ i, ext.model i = ModelOut.pair (m1 i) (m2 i)) :
    trainStep cfg ext xs ys xt = Except.ok (stepPair cfg ext m1 m2 xs ys xt) := by
  cases haux : cfg.aux
  all_goals by_cases hA : 0 < cfg.lamAug
  all_goals by_cases hF : 0 < cfg.lamFourier
  all_goals by_cases hC : 0 < cfg.lamCutmix
  all_goals
    simp [trainStep, stepPair, augBranch, fourierBranch, cutmixBranch, auxCE, origAux,
      unpack, hm, haux, hA, hF, hC]

/-- The hybrid image computed by `stepPair`. -/
theorem stepPair_hybrid {Pos : Type} {K : ℕ} (cfg : Config) (ext : Externals Pos K)
    (m1 m2 : Img Pos → Pred Pos K) (xs : Img Pos) (ys : Lab Pos) (xt : Img Pos) :
    (stepPair cfg ext m1 m2 xs ys xt).hybrid =
      fun c p =>
        if confMask (ext.smax (m1 xt)) cfg.pseudobestThreshold p then xt c p else xs c p :=
  rfl

/-- The self-best confidence mask computed by `stepPair`. -/
theorem stepPair_sbMask {Pos : Type} {K : ℕ} (cfg : Config) (ext : Externals Pos K)
    (m1 m2 : Img Pos → Pred Pos K) (xs : Img Pos) (ys : Lab Pos) (xt : Img Pos) :
    (stepPair cfg ext m1 m2 xs ys xt).sbMask =
      fun p => confMask (ext.smax (m1 xt)) cfg.pseudobestThreshold p :=
  rfl

/-- The self-best label map computed by `stepPair`. -/
theorem stepPair_sbLabel {Pos : Type} {K : ℕ} (cfg : Config) (ext : Externals Pos K)
    (m1 m2 : Img Pos → Pred Pos K) (xs : Img Pos) (ys : Lab Pos) (xt : Img Pos) :
    (stepPair cfg ext m1 m2 xs ys xt).sbLabel =
      fun p =>
        if confMask (ext.smax (m1 xt)) cfg.pseudobestThreshold p then
          ((argmaxProb (ext.smax (m1 xt) p) : ℕ) : ℤ)
        else ys p :=
  rfl

/-- The forward-pass trace of `stepPair`. -/
theorem stepPair_forwards {Pos : Type} {K : ℕ} (cfg : Config) (ext : Externals Pos K)
    (m1 m2 : Img Pos → Pred Pos K) (xs : Img Pos) (ys : Lab Pos) (xt : Img Pos) :
    (stepPair cfg ext m1 m2 xs ys xt).forwards =
      [("source", true), ("maskgen", false), ("hybrid", true), ("origpseudo", false)]
        ++ (if 0 < cfg.lamAug then [("aug", true)] else [])
        ++ (if 0 < cfg.lamFourier then [("fourier", true)] else [])
        ++ (if 0 < cfg.lamCutmix then [("cutmix", true)] else []) :=
  rfl

/-- The backward-propagated loss terms of `stepPair`. -/
theorem stepPair_backwardNames {Pos : Type} {K : ℕ} (cfg : Config) (ext : Externals Pos K)
    (m1 m2 : Img Pos → Pred Pos K) (xs : Img Pos) (ys : Lab Pos) (xt : Img Pos) :
    (stepPair cfg ext m1 m2 xs ys xt).backwardNames =
      ["source", "self_train"]
        ++ (if 0 < cfg.lamAug then ["aug"] else [])
        ++ (if 0 < cfg.lamFourier then ["fourier"] else [])
        ++ (if 0 < cfg.lamCutmix then ["cutmix"] else []) :=
  rfl

/-- The perturbation-invocation counts of `stepPair`. -/
theorem stepPair_calls {Pos : Type} {K : ℕ} (cfg : Config) (ext : Externals Pos K)
    (m1 m2 : Img Pos → Pred Pos K) (xs : Img Pos) (ys : Lab Pos) (xt : Img Pos) :
    (stepPair cfg ext m1 m2 xs ys xt).augCalls =
        (if 0 < cfg.lamAug then (if cfg.aux then 2 else 1) else 0)
      ∧ (stepPair cfg ext m1 m2 xs ys xt).fourierCalls =
        (if cfg.sourceFourier then 1 else 0) + (if 0 < cfg.lamFourier then 1 else 0)
      ∧ (stepPair cfg ext m1 m2 xs ys xt).cutmixCalls =
        (if 0 < cfg.lamCutmix then 1 else 0) :=
  ⟨rfl, rfl, rfl⟩

/-- The self-best training loss of `stepPair`, expressed through the trace
fields. -/
theorem stepPair_selfTrainLoss {Pos : Type} {K : ℕ} (cfg : Config) (ext : Externals Pos K)
    (m1 m2 : Img Pos → Pred Pos K) (xs : Img Pos) (ys : Lab Pos) (xt : Img Pos) :
    (stepPair cfg ext m1 m2 xs ys xt).selfTrainLoss =
      ext.ce (m1 (stepPair cfg ext m1 m2 xs ys xt).hybrid)
          (stepPair cfg ext m1 m2 xs ys xt).sbLabel * cfg.lamNew
        + cfg.lamAux
          * ext.ce (m2 (stepPair cfg ext m1 m2 xs ys xt).hybrid)
              (stepPair cfg ext m1 m2 xs ys xt).sbLabel
          * cfg.lamNew :=
  rfl

/-- The names of the recorded loss entries of `stepPair`. -/
theorem stepPair_recorded_names {Pos : Type} {K : ℕ} (cfg : Config) (ext : Externals Pos K)
    (m1 m2 : Img Pos → Pred Pos K) (xs : Img Pos) (ys : Lab Pos) (xt : Img Pos) :
    (stepPair cfg ext m1 m2 xs ys xt).recorded.map Prod.fst =
      ("source_main" :: (if cfg.aux then ["source_aux"] else []))
        ++ (if 0 < cfg.lamAug then "aug_main" :: (if cfg.aux then ["aug_aux"] else []) else [])
        ++ (if 0 < cfg.lamFourier then
              "fourier_main" :: (if cfg.aux then ["fourier_aux"] else [])
            else [])
        ++ (if 0 < cfg.lamCutmix then
              "cutmix_main" :: (if cfg.aux then ["cutmix_aux"] else [])
            else []) := by
  cases haux : cfg.aux
  all_goals by_cases hA : 0 < cfg.lamAug
  all_goals by_cases hF : 0 < cfg.lamFourier
  all_goals by_cases hC : 0 < cfg.lamCutmix
  all_goals simp [stepPair, haux, hA, hF, hC]

/-- The summed loss and the logged scalar names of `stepPair`. -/
theorem stepPair_total_logged {Pos : Type} {K : ℕ} (cfg : Config) (ext : Externals Pos K)
    (m1 m2 : Img Pos → Pred Pos K) (xs : Img Pos) (ys : Lab Pos) (xt : Img Pos) :
    (stepPair cfg ext m1 m2 xs ys xt).totalLoss =
        ((stepPair cfg ext m1 m2 xs ys xt).recorded.map Prod.snd).sum
      ∧ (stepPair cfg ext m1 m2 xs ys xt).logged =
        "train/lr" ::
          (stepPair cfg ext m1 m2 xs ys xt).recorded.map (fun e => "train/" ++ e.1) :=
  ⟨rfl, rfl⟩

/-- The left fold underlying `argmaxProb` reaches a strictly unique
maximum wherever it starts, provided the maximum is in the remaining list
or already held. -/
theorem foldl_argmax_eq {K : ℕ} (v : Fin (K + 1) → ℚ) (j : Fin (K + 1))
    (hj : ∀ k, k ≠ j → v k < v j) (l : List (Fin (K + 1))) :
    ∀ b : Fin (K + 1), (j ∈ l ∨ b = j) →
      l.foldl (fun b k => if v b < v k then k else b) b = j := by
  induction l with
  | nil =>
    intro b hb
    rcases hb with h | h
    · exact absurd h (List.not_mem_nil j)
    · simpa using h
  | cons k ks ih =>
    intro b hb
    rw [List.foldl_cons]
    by_cases hbj : b = j
    · subst hbj
      have hstep : (if v b < v k then k else b) = b := by
        by_cases hkj : k = b
        · subst hkj; simp
        · exact if_neg (not_lt.mpr (le_of_lt (hj k hkj)))
      rw [hstep]
      exact ih b (Or.inr rfl)
    · have hjmem : j ∈ k :: ks := hb.resolve_right hbj
      rcases List.mem_cons.mp hjmem with hkj | hks
      · have hlt : v b < v j := hj b hbj
        rw [hkj] at hlt
        rw [if_pos hlt]
        exact ih k (Or.inr hkj.symm)
      · exact ih (if v b < v k then k else b) (Or.inl hks)

/-- A strictly unique maximal class is the argmax. -/
theorem argmaxProb_eq {K : ℕ} (v : Fin (K + 1) → ℚ) (j : Fin (K + 1))
    (hj : ∀ k, k ≠ j → v k < v j) : argmaxProb v = j :=
  foldl_argmax_eq v j hj (List.finRange (K + 1)) ⟨0, Nat.succ_pos K⟩
    (Or.inl (List.mem_finRange j))

/-- Under a strictly unique maximal class, `maxProb` is its score. -/
theorem maxProb_eq {K : ℕ} (v : Fin (K + 1) → ℚ) (j : Fin (K + 1))
    (hj : ∀ k, k ≠ j → v k < v j) : maxProb v = v j := by
  rw [maxProb, argmaxProb_eq v j hj]

/-- C1. In the self-best branch of every training step, the hybrid image
replaces, per pixel and across all three channels, each pixel whose
self-best confidence is not above the threshold with the co-located pixel
of the clone of the source image, and leaves above-threshold target pixels
unchanged; the mask-generation forward pass is not gradient-tracked while
the forward pass on the hybrid image is gradient-tracked. -/
theorem hybrid_image_and_grad_tracking {Pos : Type} {K : ℕ} (cfg : Config)
    (ext : Externals Pos K) (m1 m2 : Img Pos → Pred Pos K) (xs : Img Pos) (ys : Lab Pos)
    (xt : Img Pos) (r : StepResult Pos)
    (hm : ∀ i, ext.model i = ModelOut.pair (m1 i) (m2 i))
    (h : trainStep cfg ext xs ys xt = Except.ok r) :
    (∀ (c : Fin 3) (p : Pos),
        maxProb (ext.smax (m1 xt) p) ≤ cfg.pseudobestThreshold → r.hybrid c p = xs c p)
      ∧ (∀ (c : Fin 3) (p : Pos),
        cfg.pseudobestThreshold < maxProb (ext.smax (m1 xt) p) → r.hybrid c p = xt c p)
      ∧ ("maskgen", false) ∈ r.forwards ∧ ("hybrid", true) ∈ r.forwards := by
  rw [trainStep_pair cfg ext m1 m2 xs ys xt hm] at h
  injection h with h
  subst h
  refine ⟨?_, ?_, ?_, ?_⟩
  · intro c p hle
    rw [stepPair_hybrid]
    simp [confMask, not_lt.mpr hle]
  · intro c p hlt
    rw [stepPair_hybrid]
    simp [confMask, hlt]
  · rw [stepPair_forwards]; simp
  · rw [stepPair_forwards]; simp

/-- Witness for C1 on the demonstration scenario: pixel `1` is
low-confidence and receives the source pixel, pixel `0` is high-confidence
and keeps the target pixel, and the two forward passes appear with their
gradient flags. -/
theorem hybrid_image_and_grad_tracking_w :
    (demoRes demoCfg).hybrid 0 1 = demoXs 0 1
      ∧ (demoRes demoCfg).hybrid 0 0 = demoXt 0 0
      ∧ ("maskgen", false) ∈ (demoRes demoCfg).forwards
      ∧ ("hybrid", true) ∈ (demoRes demoCfg).forwards := by
  have hok : trainStep demoCfg demoExt demoXs demoYs demoXt = Except.ok (demoRes demoCfg) := by
    rw [trainStep_pair demoCfg demoExt demoM1 demoM2 demoXs demoYs demoXt (fun i => rfl)]
    rfl
  have h := hybrid_image_and_grad_tracking demoCfg demoExt demoM1 demoM2 demoXs demoYs demoXt
    (demoRes demoCfg) (fun i => rfl) hok
  exact ⟨h.1 0 1 (by decide), h.2.1 0 0 (by decide), h.2.2.1, h.2.2.2⟩

/-- C3. In every training step, the self-best policy takes as hard label
the argmax of the softmaxed main mask-generation prediction, sets the mask
exactly when the maximal softmaxed score exceeds the self-best threshold,
and for masked-out pixels falls back to the co-located source ground-truth
label rather than the ignore value. -/
theorem self_best_policy {Pos : Type} {K : ℕ} (cfg : Config) (ext : Externals Pos K)
    (m1 m2 : Img Pos → Pred Pos K) (xs : Img Pos) (ys : Lab Pos) (xt : Img Pos)
    (r : StepResult Pos) (hm : ∀ i, ext.model i = ModelOut.pair (m1 i) (m2 i))
    (h : trainStep cfg ext xs ys xt = Except.ok r) (p : Pos) (j : Fin (K + 1)) :
    ((∀ k, k ≠ j → ext.smax (m1 xt) p k < ext.smax (m1 xt) p j) →
        cfg.pseudobestThreshold < ext.smax (m1 xt) p j →
        r.sbLabel p = ((j : ℕ) : ℤ) ∧ r.sbMask p = true)
      ∧ (maxProb (ext.smax (m1 xt) p) ≤ cfg.pseudobestThreshold →
        r.sbLabel p = ys p ∧ r.sbMask p = false)
      ∧ (r.sbMask p = true ↔ cfg.pseudobestThreshold < maxProb (ext.smax (m1 xt) p)) := by
  rw [trainStep_pair cfg ext m1 m2 xs ys xt hm] at h
  injection h with h
  subst h
  rw [stepPair_sbLabel, stepPair_sbMask]
  refine ⟨?_, ?_, ?_⟩
  · intro huniq hT
    have hax : argmaxProb (ext.smax (m1 xt) p) = j := argmaxProb_eq _ j huniq
    have hmx : maxProb (ext.smax (m1 xt) p) = ext.smax (m1 xt) p j := maxProb_eq _ j huniq
    have hmask : confMask (ext.smax (m1 xt)) cfg.pseudobestThreshold p = true := by
      simp [confMask, hmx, hT]
    refine ⟨?_, hmask⟩
    simp only [hmask, if_true, hax]
  · intro hle
    have hmask : confMask (ext.smax (m1 xt)) cfg.pseudobestThreshold p = false := by
      simp [confMask, not_lt.mpr hle]
    simp [hmask]
  · simp [confMask]

/-- Witness for C3 on the demonstration scenario: at threshold `5`, pixel
`0` (score `9` on class `7`) gets hard label `7` and a true mask, and
pixel `1` (maximal score `3`) falls back to the source ground-truth label
`3` with a false mask. -/
theorem self_best_policy_w :
    (demoRes demoCfg).sbLabel 0 = ((7 : ℕ) : ℤ) ∧ (demoRes demoCfg).sbMask 0 = true
      ∧ (demoRes demoCfg).sbLabel 1 = demoYs 1
      ∧ (demoRes demoCfg).sbMask 1 = false := by
  have hok : trainStep demoCfg demoExt demoXs demoYs demoXt = Except.ok (demoRes demoCfg) := by
    rw [trainStep_pair demoCfg demoExt demoM1 demoM2 demoXs demoYs demoXt (fun i => rfl)]
    rfl
  have h0 := self_best_policy demoCfg demoExt demoM1 demoM2 demoXs demoYs demoXt
    (demoRes demoCfg) (fun i => rfl) hok 0 7
  have h1 := self_best_policy demoCfg demoExt demoM1 demoM2 demoXs demoYs demoXt
    (demoRes demoCfg) (fun i => rfl) hok 1 7
  exact ⟨(h0.1 (by decide) (by decide)).1, (h0.1 (by decide) (by decide)).2,
    (h1.2.1 (by decide)).1, (h1.2.1 (by decide)).2⟩

/-- C9. For fixed predictions, confidence masks are antitone in the
threshold: at `T1 ≤ T2` every pixel masked at `T2` is masked at `T1`,
both for the single-map mask (`confMask`, used by the self-best and the
original policy) and for the or-combined auxiliary mask of the original
policy. -/
theorem mask_threshold_monotone {Pos : Type} {K : ℕ} (prob P1 P2 : Pred Pos K)
    (T1 T2 : ℚ) (h : T1 ≤ T2) (p : Pos) :
    (confMask prob T2 p = true → confMask prob T1 p = true)
      ∧ ((confMask P1 T2 p || confMask P2 T2 p) = true →
        (confMask P1 T1 p || confMask P2 T1 p) = true) := by
  constructor
  · intro hm
    simp only [confMask, decide_eq_true_eq] at hm ⊢
    exact lt_of_le_of_lt h hm
  · intro hm
    simp only [confMask, Bool.or_eq_true, decide_eq_true_eq] at hm ⊢
    rcases hm with hm | hm
    · exact Or.inl (lt_of_le_of_lt h hm)
    · exact Or.inr (lt_of_le_of_lt h hm)

/-- Witness for C9: at the lower threshold `4` the pixel masked at
threshold `5` stays masked. -/
theorem mask_threshold_monotone_w :
    ((4 : ℚ) ≤ 5) ∧ confMask demoProb 4 0 = true
      ∧ (confMask demoProb 4 0 || confMask demoProb 4 0) = true := by
  have h := mask_threshold_monotone demoProb demoProb demoProb 4 5 (by norm_num) 0
  exact ⟨by norm_num, h.1 (by decide), h.2 (by decide)⟩

/-- C2, counterexample. A configuration with every consistency weight
(augmentation, Fourier, CutMix) at zero but the source-Fourier flag on:
the step succeeds, yet `fourier_mix` is invoked once (for the source
image) and the original pseudo-label forward pass still executes — so the
step neither avoids all perturbation calls nor skips the pseudo-label pass
belonging to the skipped consistency terms. -/
theorem consistency_skip_cex :
    demoCfgSF.lamAug = 0 ∧ demoCfgSF.lamFourier = 0 ∧ demoCfgSF.lamCutmix = 0
      ∧ (trainStep demoCfgSF demoExt demoXs demoYs demoXt).isOk = true
      ∧ (demoRes demoCfgSF).fourierCalls = 1
      ∧ ("origpseudo", false) ∈ (demoRes demoCfgSF).forwards := by
  refine ⟨by decide, by decide, by decide, ?_, ?_, ?_⟩ <;> decide

/-- C2, amended. With every consistency weight zero and the source-Fourier
flag off, a training step propagates exactly the two loss terms (source
supervised, self-best self-training) and invokes no perturbation function;
the original pseudo-label forward pass is nevertheless executed (it is not
gated by the consistency weights). -/
theorem consistency_skip_amended {Pos : Type} {K : ℕ} (cfg : Config)
    (ext : Externals Pos K) (m1 m2 : Img Pos → Pred Pos K) (xs : Img Pos) (ys : Lab Pos)
    (xt : Img Pos) (r : StepResult Pos)
    (hm : ∀ i, ext.model i = ModelOut.pair (m1 i) (m2 i))
    (h : trainStep cfg ext xs ys xt = Except.ok r)
    (hA : cfg.lamAug = 0) (hF : cfg.lamFourier = 0) (hC : cfg.lamCutmix = 0)
    (hS : cfg.sourceFourier = false) :
    r.backwardNames = ["source", "self_train"]
      ∧ r.augCalls = 0 ∧ r.fourierCalls = 0 ∧ r.cutmixCalls = 0
      ∧ ("origpseudo", false) ∈ r.forwards := by
  rw [trainStep_pair cfg ext m1 m2 xs ys xt hm] at h
  injection h with h
  subst h
  have hcalls := stepPair_calls cfg ext m1 m2 xs ys xt
  refine ⟨?_, ?_, ?_, ?_, ?_⟩
  · rw [stepPair_backwardNames]; simp [hA, hF, hC]
  · rw [hcalls.1]; simp [hA]
  · rw [hcalls.2.1]; simp [hF, hS]
  · rw [hcalls.2.2]; simp [hC]
  · rw [stepPair_forwards]; simp

/-- Witness for the amended C2, on the demonstration configuration with
all consistency weights zero and the source-Fourier flag off. -/
theorem consistency_skip_amended_w :
    (demoRes demoCfg).backwardNames = ["source", "self_train"]
      ∧ (demoRes demoCfg).augCalls = 0 ∧ (demoRes demoCfg).fourierCalls = 0
      ∧ (demoRes demoCfg).cutmixCalls = 0
      ∧ ("origpseudo", false) ∈ (demoRes demoCfg).forwards := by
  have hok : trainStep demoCfg demoExt demoXs demoYs demoXt = Except.ok (demoRes demoCfg) := by
    rw [trainStep_pair demoCfg demoExt demoM1 demoM2 demoXs demoYs demoXt (fun i => rfl)]
    rfl
  exact consistency_skip_amended demoCfg demoExt demoM1 demoM2 demoXs demoYs demoXt
    (demoRes demoCfg) (fun i => rfl) hok rfl rfl rfl rfl

/-- C6, counterexample. In a successful step the self-best self-training
term is propagated into the shared gradient buffer but no entry for it is
recorded in the `losses` dictionary, and the scalars written to the log
sink are exactly the learning rate and the per-term entries — no scalar
for the summed loss is written. -/
theorem loss_logging_cex :
    "self_train" ∈ (demoRes demoCfg).backwardNames
      ∧ "self_train" ∉ (demoRes demoCfg).recorded.map Prod.fst
      ∧ (demoRes demoCfg).recorded.map Prod.fst = ["source_main"]
      ∧ (demoRes demoCfg).logged = ["train/lr", "train/source_main"]
      ∧ (trainStep demoCfg demoExt demoXs demoYs demoXt).isOk = true := by
  refine ⟨?_, ?_, ?_, ?_, ?_⟩ <;> decide

/-- C6, amended. Every term added to the shared gradient buffer except the
self-best self-training term records its scalar under its name; the summed
loss over the recorded terms is computed but not written to the log sink,
whose per-step scalars are exactly the learning rate followed by the
per-term entries. -/
theorem loss_logging_amended {Pos : Type} {K : ℕ} (cfg : Config) (ext : Externals Pos K)
    (m1 m2 : Img Pos → Pred Pos K) (xs : Img Pos) (ys : Lab Pos) (xt : Img Pos)
    (r : StepResult Pos) (hm : ∀ i, ext.model i = ModelOut.pair (m1 i) (m2 i))
    (h : trainStep cfg ext xs ys xt = Except.ok r) :
    r.recorded.map Prod.fst =
        ("source_main" :: (if cfg.aux then ["source_aux"] else []))
          ++ (if 0 < cfg.lamAug then "aug_main" :: (if cfg.aux then ["aug_aux"] else [])
              else [])
          ++ (if 0 < cfg.lamFourier then
                "fourier_main" :: (if cfg.aux then ["fourier_aux"] else [])
              else [])
          ++ (if 0 < cfg.lamCutmix then
                "cutmix_main" :: (if cfg.aux then ["cutmix_aux"] else [])
              else [])
      ∧ "self_train" ∈ r.backwardNames
      ∧ "self_train" ∉ r.recorded.map Prod.fst
      ∧ r.totalLoss = (r.recorded.map Prod.snd).sum
      ∧ r.logged = "train/lr" :: r.recorded.map (fun e => "train/" ++ e.1) := by
  rw [trainStep_pair cfg ext m1 m2 xs ys xt hm] at h
  injection h with h
  subst h
  refine ⟨stepPair_recorded_names cfg ext m1 m2 xs ys xt, ?_, ?_,
    (stepPair_total_logged cfg ext m1 m2 xs ys xt).1,
    (stepPair_total_logged cfg ext m1 m2 xs ys xt).2⟩
  · rw [stepPair_backwardNames]; simp
  · rw [stepPair_recorded_names]
    cases haux : cfg.aux
    all_goals by_cases hA : 0 < cfg.lamAug
    all_goals by_cases hF : 0 < cfg.lamFourier
    all_goals by_cases hC : 0 < cfg.lamCutmix
    all_goals simp [haux, hA, hF, hC]

/-- Witness for the amended C6, on the demonstration configuration with
the source-Fourier flag on. -/
theorem loss_logging_amended_w :
    (demoRes demoCfgSF).totalLoss = ((demoRes demoCfgSF).recorded.map Prod.snd).sum
      ∧ "self_train" ∈ (demoRes demoCfgSF).backwardNames
      ∧ "self_train" ∉ (demoRes demoCfgSF).recorded.map Prod.fst
      ∧ (demoRes demoCfgSF).logged =
        "train/lr" :: (demoRes demoCfgSF).recorded.map (fun e => "train/" ++ e.1) := by
  have hok : trainStep demoCfgSF demoExt demoXs demoYs demoXt
      = Except.ok (demoRes demoCfgSF) := by
    rw [trainStep_pair demoCfgSF demoExt demoM1 demoM2 demoXs demoYs demoXt (fun i => rfl)]
    rfl
  have h := loss_logging_amended demoCfgSF demoExt demoM1 demoM2 demoXs demoYs demoXt
    (demoRes demoCfgSF) (fun i => rfl) hok
  exact ⟨h.2.2.2.1, h.2.1, h.2.2.1, h.2.2.2.2⟩

/-- C10. The self-best branch computes the auxiliary-head cross-entropy
unconditionally: a model returning a single prediction makes the step fail
(with the unpack error of the mask-generation forward), even with the
auxiliary-head flag off — while the source branch tolerates that flag
being off — and for a pair-returning model the self-best loss contains the
auxiliary term scaled by `lam_aux` even though no `source_aux` entry is
recorded. -/
theorem self_best_aux_unconditional {Pos : Type} {K : ℕ} (cfg : Config)
    (extS extP : Externals Pos K) (m : Pred Pos K) (m1 m2 : Img Pos → Pred Pos K)
    (xs : Img Pos) (ys : Lab Pos) (xt : Img Pos) (r : StepResult Pos)
    (haux : cfg.aux = false) :
    (extS.model xt = ModelOut.single m →
        trainStep cfg extS xs ys xt = Except.error "cannot unpack single prediction")
      ∧ ((∀ i, extP.model i = ModelOut.pair (m1 i) (m2 i)) →
        trainStep cfg extP xs ys xt = Except.ok r →
        r.selfTrainLoss =
            extP.ce (m1 r.hybrid) r.sbLabel * cfg.lamNew
              + cfg.lamAux * extP.ce (m2 r.hybrid) r.sbLabel * cfg.lamNew
          ∧ "source_aux" ∉ r.recorded.map Prod.fst) := by
  constructor
  · intro hsingle
    simp [trainStep, auxCE, haux, hsingle]
  · intro hm h
    rw [trainStep_pair cfg extP m1 m2 xs ys xt hm] at h
    injection h with h
    subst h
    refine ⟨stepPair_selfTrainLoss cfg extP m1 m2 xs ys xt, ?_⟩
    rw [stepPair_recorded_names]
    by_cases hA : 0 < cfg.lamAug
    all_goals by_cases hF : 0 < cfg.lamFourier
    all_goals by_cases hC : 0 < cfg.lamCutmix
    all_goals simp [haux, hA, hF, hC]

/-- Witness for C10: the single-prediction demonstration model makes the
step raise, and on the pair demonstration model the step succeeds with no
recorded source auxiliary entry. -/
theorem self_best_aux_unconditional_w :
    trainStep demoCfg demoExtSingle demoXs demoYs demoXt
        = Except.error "cannot unpack single prediction"
      ∧ "source_aux" ∉ (demoRes demoCfg).recorded.map Prod.fst := by
  have hok : trainStep demoCfg demoExt demoXs demoYs demoXt = Except.ok (demoRes demoCfg) := by
    rw [trainStep_pair demoCfg demoExt demoM1 demoM2 demoXs demoYs demoXt (fun i => rfl)]
    rfl
  have h := self_best_aux_unconditional demoCfg demoExtSingle demoExt demoProb demoM1 demoM2
    demoXs demoYs demoXt (demoRes demoCfg) rfl
  exact ⟨h.1 rfl, (h.2 (fun i => rfl) hok).2⟩

/-- Restoring after applying the shadow recovers the live parameters
exactly, for any intervening read-only operation. -/
theorem emaRestore_applyShadow_live {P : Type} (s : EMAState P) :
    (emaRestore (applyShadow s)).live = s.live :=
  rfl

/-- C4. The validation block of the orchestrator has no exception
handling: when `validate` raises, `restore` is not executed and the shadow
parameters remain live — evaluated concretely at live `1`, shadow `2`;
when `validate` returns normally, the live parameters are recovered
bit-for-bit. -/
theorem ema_restore_skipped_on_error :
    (validationBlock (⟨1, 2, none⟩ : EMAState ℚ) true).2 = false
      ∧ (validationBlock (⟨1, 2, none⟩ : EMAState ℚ) true).1.live = 2
      ∧ (validationBlock (⟨1, 2, none⟩ : EMAState ℚ) true).1.live ≠ 1
      ∧ (validationBlock (⟨1, 2, none⟩ : EMAState ℚ) false).2 = true
      ∧ (validationBlock (⟨1, 2, none⟩ : EMAState ℚ) false).1.live = 1 := by
  refine ⟨rfl, rfl, by decide, rfl, rfl⟩

/-- C7. `load_checkpoint` restores the optimizer state and touches the
progress counters only when both the training-mode flag and the resume
flag hold; in that case a present optimizer entry is restored, and when
both `epoch` and `iter` entries are present the counters are forced to
`0`; when either flag fails, counters and optimizer state are unchanged. -/
theorem checkpoint_resume_policy {O : Type} (cfgTrain resumeFlag : Bool)
    (ck : CkptPayload O) (ts : TrainerCounters O) (o : O) :
    ((cfgTrain && resumeFlag) = false →
        loadCheckpointCounters cfgTrain resumeFlag ck ts = ts)
      ∧ (cfgTrain = true → resumeFlag = true → ck.optimizerState = some o →
        (loadCheckpointCounters cfgTrain resumeFlag ck ts).optState = o)
      ∧ (cfgTrain = true → resumeFlag = true → ck.epochVal.isSome = true →
        ck.iterVal.isSome = true →
        (loadCheckpointCounters cfgTrain resumeFlag ck ts).epoch = 0
          ∧ (loadCheckpointCounters cfgTrain resumeFlag ck ts).iter = 0) := by
  refine ⟨?_, ?_, ?_⟩
  · intro h
    simp [loadCheckpointCounters, h]
  · intro h1 h2 h3
    subst h1; subst h2
    simp only [loadCheckpointCounters, Bool.and_self, if_true, h3]
    cases ck.epochVal <;> cases ck.iterVal <;> simp
  · intro h1 h2 h3 h4
    subst h1; subst h2
    obtain ⟨e, he⟩ := Option.isSome_iff_exists.mp h3
    obtain ⟨i, hi⟩ := Option.isSome_iff_exists.mp h4
    simp only [loadCheckpointCounters, Bool.and_self, if_true, he, hi]
    cases ck.optimizerState <;> simp

/-- Witness for C7: a concrete checkpoint with optimizer state `7` and
counters present resumes the optimizer but zeroes the counters; with the
resume flag off, nothing changes. -/
theorem checkpoint_resume_policy_w :
    (loadCheckpointCounters true true
          (⟨some (7 : ℚ), some 4, some 9, true, true⟩ : CkptPayload ℚ)
          ⟨3, 5, 0⟩).optState = 7
      ∧ (loadCheckpointCounters true true
          (⟨some (7 : ℚ), some 4, some 9, true, true⟩ : CkptPayload ℚ) ⟨3, 5, 0⟩).epoch = 0
      ∧ (loadCheckpointCounters true true
          (⟨some (7 : ℚ), some 4, some 9, true, true⟩ : CkptPayload ℚ) ⟨3, 5, 0⟩).iter = 0
      ∧ loadCheckpointCounters true false
          (⟨some (7 : ℚ), some 4, some 9, true, true⟩ : CkptPayload ℚ) ⟨3, 5, 0⟩
        = ⟨3, 5, 0⟩ := by
  have h1 := checkpoint_resume_policy true true
    (⟨some (7 : ℚ), some 4, some 9, true, true⟩ : CkptPayload ℚ) ⟨3, 5, 0⟩ (7 : ℚ)
  have h2 := checkpoint_resume_policy true false
    (⟨some (7 : ℚ), some 4, some 9, true, true⟩ : CkptPayload ℚ) ⟨3, 5, 0⟩ (7 : ℚ)
  exact ⟨h1.2.1 rfl rfl rfl, (h1.2.2 rfl rfl rfl rfl).1, (h1.2.2 rfl rfl rfl rfl).2,
    h2.1 rfl⟩

/-- C8. The scheduler computes
`rate = initRate * (1 - iter / maxIter) ^ power`; at iteration `0` the
rate is the initial rate, at iteration `maxIter` the rate is `0` for every
positive power; the rate is assigned to the first optimizer parameter
group and a second group, when the optimizer has exactly two, receives ten
times the rate. -/
theorem poly_lr_contract (initLR power lr g0 g1 : ℝ) (iter maxIter : ℕ) :
    polyLR initLR iter maxIter power
        = initLR * (1 - (iter : ℝ) / (maxIter : ℝ)) ^ power
      ∧ (0 < maxIter → polyLR initLR 0 maxIter power = initLR)
      ∧ (0 < maxIter → 0 < power → polyLR initLR maxIter maxIter power = 0)
      ∧ applyPolyLR lr [g0] = some [lr]
      ∧ applyPolyLR lr [g0, g1] = some [lr, 10 * lr] := by
  refine ⟨rfl, ?_, ?_, rfl, rfl⟩
  · intro _
    simp [polyLR, Real.one_rpow]
  · intro hM hP
    have hMne : (maxIter : ℝ) ≠ 0 := Nat.cast_ne_zero.mpr hM.ne'
    simp [polyLR, div_self hMne, Real.zero_rpow hP.ne']

/-- Witness for C8 at initial rate `3`, budget `4`, power `2`, two
parameter groups. -/
theorem poly_lr_contract_w :
    (0 < 4) ∧ ((0 : ℝ) < 2) ∧ polyLR 3 0 4 2 = 3 ∧ polyLR 3 4 4 2 = 0
      ∧ applyPolyLR 5 [1] = some [5] ∧ applyPolyLR 5 [1, 7] = some [5, 10 * 5] := by
  have h := poly_lr_contract 3 2 5 1 7 1 4
  exact ⟨by norm_num, by norm_num, h.2.1 (by norm_num), h.2.2.1 (by norm_num) (by norm_num),
    h.2.2.2.1, h.2.2.2.2⟩

/-- One step of the per-epoch loop, unfolded. -/
theorem runEpoch_succ (M : ℕ) (imp : ℕ → Bool) (n bidx it : ℕ) (bs : Bool) :
    runEpoch M imp (n + 1) bidx it bs =
      if M < it + 1 then EpochOut.halt (it + 1) bs
      else if 0 < bidx ∧ bidx % 200 = 0 then
        (if imp (it + 1) then runEpoch M imp n (bidx + 1) (it + 1) true
          else if bs then runEpoch M imp n (bidx + 1) (it + 1) bs
          else EpochOut.crash)
      else runEpoch M imp n (bidx + 1) (it + 1) bs :=
  rfl

/-- One step of the epoch loop of `train`, unfolded. -/
theorem trainLoop_succ (M total : ℕ) (imp : ℕ → Bool) (fuel it : ℕ) (bs : Bool) :
    trainLoop M total imp (fuel + 1) it bs =
      match runEpoch M imp total 0 it bs with
      | EpochOut.crash => RunOut.crash
      | EpochOut.halt it2 bs2 =>
        if bs2 then RunOut.finished it2 [it2] else RunOut.crash
      | EpochOut.done it2 bs2 => trainLoop M total imp fuel it2 bs2 :=
  rfl

/-- Once `best_iter` has been assigned, the remainder of an epoch is pure
iteration counting: it completes at `it + n` when that stays within the
budget and halts at `M + 1` otherwise, never crashing. -/
theorem runEpoch_bestSet {M : ℕ} (imp : ℕ → Bool) :
    ∀ n bidx it : ℕ, it ≤ M →
      runEpoch M imp n bidx it true =
        if it + n ≤ M then EpochOut.done (it + n) true
        else EpochOut.halt (M + 1) true := by
  intro n
  induction n with
  | zero =>
    intro bidx it h
    simp [runEpoch, h]
  | succ n ih =>
    intro bidx it h
    rw [runEpoch_succ]
    by_cases h2 : M < it + 1
    · have hit : it = M := le_antisymm h (Nat.lt_succ_iff.mp h2)
      subst hit
      rw [if_pos h2, if_neg (by omega)]
    · have h3 : it + 1 ≤ M := Nat.not_lt.mp h2
      rw [if_neg h2]
      have hrec :
          (if imp (it + 1) then runEpoch M imp n (bidx + 1) (it + 1) true
            else if true then runEpoch M imp n (bidx + 1) (it + 1) true
            else EpochOut.crash)
          = runEpoch M imp n (bidx + 1) (it + 1) true := by
        cases imp (it + 1) <;> simp
      by_cases hv : 0 < bidx ∧ bidx % 200 = 0
      · rw [if_pos hv, hrec, ih (bidx + 1) (it + 1) h3]
        have harith : it + 1 + n = it + (n + 1) := by omega
        rw [harith]
      · rw [if_neg hv, ih (bidx + 1) (it + 1) h3]
        have harith : it + 1 + n = it + (n + 1) := by omega
        rw [harith]

/-- Before `best_iter` is assigned, a validation-free stretch of batch
indices `bidx, …, 199` is pure iteration counting (within the budget). -/
theorem runEpoch_noval {M : ℕ} (imp : ℕ → Bool) :
    ∀ k n bidx it : ℕ, bidx + k = 200 → 1 ≤ bidx → it + k ≤ M →
      runEpoch M imp (k + n) bidx it false = runEpoch M imp n 200 (it + k) false := by
  intro k
  induction k with
  | zero =>
    intro n bidx it h1 _ _
    have hb : bidx = 200 := by omega
    subst hb
    simp
  | succ k ih =>
    intro n bidx it h1 h2 h3
    have hb200 : bidx < 200 := by omega
    have hmod : bidx % 200 = bidx := Nat.mod_eq_of_lt hb200
    have hcond : ¬(0 < bidx ∧ bidx % 200 = 0) := by
      rw [hmod]
      omega
    have hstep : k + 1 + n = (k + n) + 1 := by omega
    rw [hstep, runEpoch_succ, if_neg (by omega : ¬M < it + 1), if_neg hcond,
      ih n (bidx + 1) (it + 1) (by omega) (by omega) (by omega)]
    have harith : it + 1 + k = it + (k + 1) := by omega
    rw [harith]

/-- C5, counterexample. With iteration budget `1000`, `100` lockstep
batches per epoch (so the validation block never triggers) and no
improving validation, `self.best_iter` is never assigned: the final log
line of `train` raises `AttributeError` before `save_checkpoint`, so the
run crashes and no final checkpoint is written — contradicting the claim
that a final checkpoint with `iter = 1001` is always written. -/
theorem final_checkpoint_cex :
    trainLoop 1000 100 (fun _ => false) 1002 0 false = RunOut.crash := by
  decide

/-- C5, amended. With iteration budget `1000` and `300` lockstep batches
per epoch, provided the first validation (at iteration `201`) improves the
best MIoU (assigning `self.best_iter`), training halts after the 1001st
completed step (the first whose post-increment counter exceeds the
budget) and the final checkpoint is written exactly once, containing
`iter = 1001`; without any improving validation the final log line crashes
first and no final checkpoint is written. -/
theorem final_checkpoint_amended (improves : ℕ → Bool) (h201 : improves 201 = true) :
    trainLoop 1000 300 improves 1002 0 false = RunOut.finished 1001 [1001] := by
  have hstep0 : runEpoch 1000 improves 300 0 0 false
      = runEpoch 1000 improves 299 1 1 false := by
    rw [show (300 : ℕ) = 299 + 1 from rfl, runEpoch_succ]
    norm_num
  have hpre : runEpoch 1000 improves 299 1 1 false
      = runEpoch 1000 improves 100 200 200 false := by
    have h := runEpoch_noval (M := 1000) improves 199 100 1 1 (by norm_num) (by norm_num)
      (by norm_num)
    norm_num at h
    exact h
  have hval : runEpoch 1000 improves 100 200 200 false
      = runEpoch 1000 improves 99 201 201 true := by
    rw [show (100 : ℕ) = 99 + 1 from rfl, runEpoch_succ]
    rw [if_neg (by norm_num : ¬(1000 : ℕ) < 200 + 1)]
    rw [if_pos (by norm_num : 0 < 200 ∧ 200 % 200 = 0)]
    rw [if_pos h201]
  have hep1 : runEpoch 1000 improves 300 0 0 false = EpochOut.done 300 true := by
    rw [hstep0, hpre, hval, runEpoch_bestSet improves 99 201 201 (by norm_num)]
    norm_num
  have hep2 : runEpoch 1000 improves 300 0 300 true = EpochOut.done 600 true := by
    rw [runEpoch_bestSet improves 300 0 300 (by norm_num)]
    norm_num
  have hep3 : runEpoch 1000 improves 300 0 600 true = EpochOut.done 900 true := by
    rw [runEpoch_bestSet improves 300 0 600 (by norm_num)]
    norm_num
  have hep4 : runEpoch 1000 improves 300 0 900 true = EpochOut.halt 1001 true := by
    rw [runEpoch_bestSet improves 300 0 900 (by norm_num)]
    norm_num
  have hl1 : trainLoop 1000 300 improves 999 900 true = RunOut.finished 1001 [1001] := by
    show trainLoop 1000 300 improves (998 + 1) 900 true = RunOut.finished 1001 [1001]
    rw [trainLoop_succ, hep4]
    rfl
  have hl2 : trainLoop 1000 300 improves 1000 600 true = RunOut.finished 1001 [1001] := by
    show trainLoop 1000 300 improves (999 + 1) 600 true = RunOut.finished 1001 [1001]
    rw [trainLoop_succ, hep3]
    exact hl1
  have hl3 : trainLoop 1000 300 improves 1001 300 true = RunOut.finished 1001 [1001] := by
    show trainLoop 1000 300 improves (1000 + 1) 300 true = RunOut.finished 1001 [1001]
    rw [trainLoop_succ, hep2]
    exact hl2
  show trainLoop 1000 300 improves (1001 + 1) 0 false = RunOut.finished 1001 [1001]
  rw [trainLoop_succ, hep1]
  exact hl3

/-- Witness for the amended C5, with every validation improving. -/
theorem final_checkpoint_amended_w :
    (fun _ : ℕ => true) 201 = true
      ∧ trainLoop 1000 300 (fun _ => true) 1002 0 false = RunOut.finished 1001 [1001] :=
  ⟨rfl, final_checkpoint_amended (fun _ => true) rfl⟩

end PixelMix
